import Mathlib

/-!
Verification development for the UK business directory scraper
(`api/scrape.py`).  The Python source is shallowly embedded: regular
expressions become backtracking matchers over `List Char`, the HTTP fetch
performed by each source adapter becomes an explicit oracle
(`FetchOutcome`), pagination becomes a fuel-based loop that also records
which pages were fetched, and the request handler becomes a pure function
from a decoded request to a response, with exceptions modelled by
`Except String`.
-/

/-! ## Character classes (ASCII, as used by the Python regexes) -/

/-- ASCII letters, both cases; the Python patterns are compiled with
IGNORECASE or list both cases explicitly. -/
def asciiLetters : List Char := ("abcdefghijklmnopqrstuvwxyzABCDEFGHIJKLMNOPQRSTUVWXYZ").toList

/-- ASCII uppercase letters. -/
def asciiUpper : List Char := ("ABCDEFGHIJKLMNOPQRSTUVWXYZ").toList

/-- ASCII digits. -/
def asciiDigits : List Char := ("0123456789").toList

/-- Characters matched by the Python regex class backslash-s (ASCII range). -/
def pyWhitespace : List Char := [' ', '\t', '\n', '\r', '\x0b', '\x0c']

def isLetterC (c : Char) : Bool := asciiLetters.contains c

def isUpperC (c : Char) : Bool := asciiUpper.contains c

def isDigitC (c : Char) : Bool := asciiDigits.contains c

def isSpaceC (c : Char) : Bool := pyWhitespace.contains c

def isLetterOrDigitC (c : Char) : Bool := isLetterC c || isDigitC c

/-! ## Backtracking regex matchers

A matcher consumes a prefix of the input and passes the remaining suffix
to a continuation; alternatives are tried in the same order as the Python
`re` engine (greedy quantifiers, leftmost match), so a successful run
returns exactly the text `re` would match. -/

/-- Matchers in continuation-passing style: the continuation receives the
suffix left after the consumed prefix. -/
def MatchK : Type := List Char → (List Char → Option (List Char)) → Option (List Char)

/-- Match one character of the class `p`. -/
def mChar (p : Char → Bool) : MatchK := fun cs k =>
  match cs with
  | [] => none
  | c :: rest => if p c then k rest else none

/-- Match the literal character `a`. -/
def mCharIs (a : Char) : MatchK := mChar (fun c => c == a)

/-- Sequential composition of two matchers. -/
def mSeq (m1 m2 : MatchK) : MatchK := fun cs k => m1 cs (fun rest => m2 rest k)

/-- Ordered alternation, first alternative preferred. -/
def mAlt (m1 m2 : MatchK) : MatchK := fun cs k =>
  match m1 cs k with
  | some r => some r
  | none => m2 cs k

/-- Greedy optional matcher (regex question mark). -/
def mOpt (m : MatchK) : MatchK := fun cs k =>
  match m cs k with
  | some r => some r
  | none => k cs

/-- Greedy unbounded repetition of a character class (regex star). -/
def mStar (p : Char → Bool) : List Char → (List Char → Option (List Char)) → Option (List Char)
  | [], k => k []
  | c :: rest, k =>
    if p c then
      match mStar p rest k with
      | some r => some r
      | none => k (c :: rest)
    else k (c :: rest)

/-- Greedy bounded repetition of a character class: between `lo` and `hi`
occurrences, preferring more. -/
def mRep (p : Char → Bool) (lo : Nat) : Nat → MatchK
  | 0 => fun cs k => if lo = 0 then k cs else none
  | hi + 1 => fun cs k =>
    match cs with
    | [] => if lo = 0 then k cs else none
    | c :: rest =>
      if p c then
        match mRep p (lo - 1) hi rest k with
        | some r => some r
        | none => if lo = 0 then k cs else none
      else if lo = 0 then k cs else none

/-- Greedy one-or-more repetition of a character class (regex plus). -/
def mPlus (p : Char → Bool) : MatchK := mSeq (mChar p) (mStar p)

/-- Run a matcher at the start of the input; on success return the matched
prefix together with the remaining suffix. -/
def runMatch (m : MatchK) (cs : List Char) : Option (List Char × List Char) :=
  match m cs some with
  | some rest => some (cs.take (cs.length - rest.length), rest)
  | none => none

/-- Python `re.search`: try the pattern at each position from the left and
return the first (leftmost) match. -/
def research (m : MatchK) : List Char → Option (List Char)
  | [] => none
  | c :: cs =>
    match runMatch m (c :: cs) with
    | some (matched, _) => some matched
    | none => research m cs

/-- Fuel-based worker for `refindall`; the fuel is the input length, and
each step consumes at least one character. -/
def refindAux (m : MatchK) : Nat → List Char → List String
  | 0, _ => []
  | _ + 1, [] => []
  | fuel + 1, c :: cs =>
    match runMatch m (c :: cs) with
    | some (matched, rest) =>
      if matched.isEmpty then refindAux m fuel cs
      else String.mk matched :: refindAux m fuel rest
    | none => refindAux m fuel cs

/-- Python `re.findall` (for patterns without capture groups): all
non-overlapping matches, scanning left to right. -/
def refindall (m : MatchK) (s : String) : List String :=
  refindAux m s.toList.length s.toList

/-! ## Text extraction helpers (`UKBusinessScraper` private methods) -/

/-- Pattern for one email address:
`[a-zA-Z0-9._%+-]+@[a-zA-Z0-9.-]+\.[a-zA-Z]{2,}`. -/
def emailLocalC (c : Char) : Bool :=
  isLetterC c || isDigitC c || c == '.' || c == '_' || c == '%' || c == '+' || c == '-'

def emailDomainC (c : Char) : Bool := isLetterC c || isDigitC c || c == '.' || c == '-'

def emailM : MatchK :=
  mSeq (mPlus emailLocalC)
    (mSeq (mCharIs '@')
      (mSeq (mPlus emailDomainC)
        (mSeq (mCharIs '.')
          (mSeq (mChar isLetterC) (mPlus isLetterC)))))

/-- Python `c.lower()` for the ASCII range actually produced by the
matchers. -/
def pyLowerChar (c : Char) : Char := c.toLower

def pyLower (s : String) : String := String.mk (s.toList.map pyLowerChar)

/-- Python `str.strip()`: drop leading and trailing whitespace. -/
def pyStripL (cs : List Char) : List Char :=
  ((cs.dropWhile isSpaceC).reverse.dropWhile isSpaceC).reverse

def pyStrip (s : String) : String := String.mk (pyStripL s.toList)

/-- Substring test: does `needle` occur inside `hay` (Python `x in e`)? -/
def listContainsSub (needle hay : List Char) : Bool :=
  (List.range (hay.length + 1)).any (fun i => needle.isPrefixOf (hay.drop i))

/-- Noise filter of `_extract_emails`: any of these substrings occurring in
the lowercased candidate disqualifies it. -/
def emailNoiseList : List String :=
  ["example.", "domain.", "email.", ".png", ".jpg", ".gif", "sentry.io"]

def isNoiseEmail (e : String) : Bool :=
  emailNoiseList.any (fun x => listContainsSub x.toList (pyLower e).toList)

/-- Embedding of `_extract_emails`: find all pattern matches, drop noise
matches, and collapse duplicates.  Python builds `list(set(filtered))`,
whose element order is unspecified; `List.dedup` fixes one order while
preserving membership and the one-occurrence-per-element property. -/
def extract_emails (text : String) : List String :=
  ((refindall emailM text).filter (fun e => !(isNoiseEmail e))).dedup

/-- First phone pattern: `(?:\+44|0)[\s.-]?\d{2,4}[\s.-]?\d{3,4}[\s.-]?\d{3,4}`. -/
def phoneSepC (c : Char) : Bool := isSpaceC c || c == '.' || c == '-'

def phonePrefixM : MatchK :=
  mAlt (mSeq (mCharIs '+') (mSeq (mCharIs '4') (mCharIs '4'))) (mCharIs '0')

def phoneM1 : MatchK :=
  mSeq phonePrefixM
    (mSeq (mOpt (mChar phoneSepC))
      (mSeq (mRep isDigitC 2 4)
        (mSeq (mOpt (mChar phoneSepC))
          (mSeq (mRep isDigitC 3 4)
            (mSeq (mOpt (mChar phoneSepC)) (mRep isDigitC 3 4))))))

/-- Second phone pattern: `(?:\+44|0)\s?\d{10,11}`. -/
def phoneM2 : MatchK :=
  mSeq phonePrefixM (mSeq (mOpt (mChar isSpaceC)) (mRep isDigitC 10 11))

/-- Third phone pattern: `\d{5}\s?\d{6}`. -/
def phoneM3 : MatchK :=
  mSeq (mRep isDigitC 5 5) (mSeq (mOpt (mChar isSpaceC)) (mRep isDigitC 6 6))

/-- Embedding of `_extract_uk_phones`: union of the three pattern runs,
duplicates collapsed through a set (order of `list(set(...))` is
unspecified in Python; modelled with `List.dedup`). -/
def extract_uk_phones (text : String) : List String :=
  ((refindall phoneM1 text) ++ refindall phoneM2 text ++ refindall phoneM3 text).dedup

/-- Postcode pattern `[A-Z]{1,2}\d[A-Z\d]?\s*\d[A-Z]{2}`, compiled with
IGNORECASE. -/
def postcodeM : MatchK :=
  mSeq (mRep isLetterC 1 2)
    (mSeq (mChar isDigitC)
      (mSeq (mOpt (mChar isLetterOrDigitC))
        (mSeq (mStar isSpaceC)
          (mSeq (mChar isDigitC) (mRep isLetterC 2 2)))))

/-- Python `c.upper()` for the ASCII range produced by the postcode
matcher. -/
def pyUpperChar (c : Char) : Char := c.toUpper

/-- Embedding of `_extract_uk_postcode`: first (leftmost) match of the
postcode pattern, uppercased; empty string when there is no match. -/
def extract_uk_postcode (text : String) : String :=
  match research postcodeM text.toList with
  | some m => String.mk (m.map pyUpperChar)
  | none => ""

/-- Worker for `_clean_text`: split the text into maximal runs of
non-whitespace characters (Python `str.split()` with no argument). -/
def wordsAux : List Char → List Char → List (List Char)
  | [], acc => if acc.isEmpty then [] else [acc.reverse]
  | c :: rest, acc =>
    if isSpaceC c then
      if acc.isEmpty then wordsAux rest [] else acc.reverse :: wordsAux rest []
    else wordsAux rest (c :: acc)

/-- Join word runs with single spaces (Python `' '.join(...)`). -/
def joinSpace : List (List Char) → List Char
  | [] => []
  | [w] => w
  | w :: (w2 :: ws) => w ++ ' ' :: joinSpace (w2 :: ws)

/-- Embedding of `_clean_text`: collapse whitespace runs to single spaces
and strip the ends (the final `.strip()` of the source is kept even though
the join already has no boundary whitespace). -/
def clean_text (text : String) : String :=
  String.mk (pyStripL (joinSpace (wordsAux text.toList [])))

/-! ## The listing record (`UKBusiness` dataclass) -/

/-- Embedding of the `UKBusiness` dataclass.  `social_media` is an
association list standing for the Python dict; `scraped_at` is the capture
timestamp, whose concrete value depends on the clock and defaults to the
empty string in this timeless model. -/
structure UKBusiness where
  name : String := ""
  email : String := ""
  phone : String := ""
  website : String := ""
  address : String := ""
  city : String := ""
  county : String := ""
  postcode : String := ""
  country : String := "UK"
  industry : String := ""
  description : String := ""
  company_number : String := ""
  revenue : String := ""
  employees : String := ""
  year_founded : String := ""
  company_status : String := ""
  sic_codes : String := ""
  rating : String := ""
  review_count : String := ""
  opening_hours : String := ""
  social_media : List (String × String) := []
  source : String := ""
  scraped_at : String := ""
deriving DecidableEq, Repr

/-! ## Listing containers

Each adapter reads a fixed set of CSS selectors from a listing container.
A container is embedded as the tuple of texts those selectors would
return: `Option String` for a `select_one` (with `none` for a missing
element) and `List String` for a `select`.  Fallback chains
(`select_one(a) or select_one(b)`) become `Option.orElse`. -/

/-- Yell.com listing container (`.businessCapsule` or
`[data-testid="business-card"]`). -/
structure YellListing where
  nameMain : Option String := none
  nameAlt : Option String := none
  addressMain : Option String := none
  addressAlt : Option String := none
  phoneMain : Option String := none
  phoneAlt : Option String := none
  categories : List String := []
  ratingText : Option String := none
  descriptionText : Option String := none
deriving DecidableEq, Repr

/-- FreeIndex listing container (`.listing` or `.search-result-item`). -/
structure FreeindexListing where
  nameMain : Option String := none
  nameAlt : Option String := none
  locationText : Option String := none
  categoryText : Option String := none
  ratingText : Option String := none
deriving DecidableEq, Repr

/-- Thomson Local listing container (`.listing-item` or `.search-result`). -/
structure ThomsonListing where
  nameMain : Option String := none
  nameAlt : Option String := none
  addressText : Option String := none
  phoneMain : Option String := none
  phoneAlt : Option String := none
deriving DecidableEq, Repr

/-- Yelp UK listing container (`[data-testid="serp-ia-card"]` or the
versioned container class). -/
structure YelpListing where
  nameText : Option String := none
  categories : List String := []
deriving DecidableEq, Repr

/-- Google local-pack result container (`.VkpGBb` or `[data-hveid]`).
`fullText` is `result.get_text()`, fed to the rating regex and the phone
extractor. -/
structure GoogleListing where
  nameMain : Option String := none
  nameAlt : Option String := none
  fullText : String := ""
  addressText : Option String := none
deriving DecidableEq, Repr

/-! ## Per-adapter field extraction -/

/-- Rating pattern of the Google adapter: `(\d+\.?\d*)\s*\((\d+)\)`. -/
def ratingM : MatchK :=
  mSeq (mPlus isDigitC)
    (mSeq (mOpt (mCharIs '.'))
      (mSeq (mStar isDigitC)
        (mSeq (mStar isSpaceC)
          (mSeq (mCharIs '(')
            (mSeq (mPlus isDigitC) (mCharIs ')'))))))

/-- Group extraction for the rating pattern: group 1 is the leading
digits-and-dot run, group 2 the digits inside the parentheses. -/
def ratingSearch (text : String) : Option (String × String) :=
  (research ratingM text.toList).map (fun m =>
    (String.mk (m.takeWhile (fun c => isDigitC c || c == '.')),
     String.mk (((m.dropWhile (fun c => !(c == '('))).drop 1).takeWhile isDigitC)))

/-- Field extraction of `scrape_yell` for one listing container. -/
def parseYell (l : YellListing) : UKBusiness :=
  let b : UKBusiness := { source := "yell.com" }
  let b := match l.nameMain <|> l.nameAlt with
    | some t => { b with name := clean_text t }
    | none => b
  let b := match l.addressMain <|> l.addressAlt with
    | some t =>
      let fullAddress := clean_text t
      { b with address := fullAddress, postcode := extract_uk_postcode fullAddress }
    | none => b
  let b := match l.phoneMain <|> l.phoneAlt with
    | some t => { b with phone := clean_text t }
    | none => b
  let b :=
    if !l.categories.isEmpty then
      { b with industry := String.intercalate (", ") (l.categories.map clean_text) }
    else b
  let b := match l.ratingText with
    | some t => { b with rating := clean_text t }
    | none => b
  let b := match l.descriptionText with
    | some t => { b with description := clean_text t }
    | none => b
  b

/-- Field extraction of `scrape_freeindex` for one listing container; the
postcode is extracted from the raw (uncleaned) location text, as in the
source. -/
def parseFreeindex (l : FreeindexListing) : UKBusiness :=
  let b : UKBusiness := { source := "freeindex" }
  let b := match l.nameMain <|> l.nameAlt with
    | some t => { b with name := clean_text t }
    | none => b
  let b := match l.locationText with
    | some t => { b with address := clean_text t, postcode := extract_uk_postcode t }
    | none => b
  let b := match l.categoryText with
    | some t => { b with industry := clean_text t }
    | none => b
  let b := match l.ratingText with
    | some t => { b with rating := clean_text t }
    | none => b
  b

/-- Field extraction of `scrape_thomson_local` for one listing container. -/
def parseThomson (l : ThomsonListing) : UKBusiness :=
  let b : UKBusiness := { source := "thomson_local" }
  let b := match l.nameMain <|> l.nameAlt with
    | some t => { b with name := clean_text t }
    | none => b
  let b := match l.addressText with
    | some t => { b with address := clean_text t, postcode := extract_uk_postcode t }
    | none => b
  let b := match l.phoneMain <|> l.phoneAlt with
    | some t => { b with phone := clean_text t }
    | none => b
  b

/-- Field extraction of `scrape_yelp_uk` for one listing container. -/
def parseYelp (l : YelpListing) : UKBusiness :=
  let b : UKBusiness := { source := "yelp_uk" }
  let b := match l.nameText with
    | some t => { b with name := clean_text t }
    | none => b
  let b :=
    if !l.categories.isEmpty then
      { b with industry := String.intercalate (", ") (l.categories.map clean_text) }
    else b
  b

/-- Field extraction of `scrape_google_maps` for one result container. -/
def parseGoogle (l : GoogleListing) : UKBusiness :=
  let b : UKBusiness := { source := "google_maps" }
  let b := match l.nameMain <|> l.nameAlt with
    | some t => { b with name := clean_text t }
    | none => b
  let b := match ratingSearch l.fullText with
    | some (r, rc) => { b with rating := r, review_count := rc }
    | none => b
  let b := match l.addressText with
    | some t => { b with address := clean_text t, postcode := extract_uk_postcode t }
    | none => b
  let phones := extract_uk_phones l.fullText
  let b :=
    if !phones.isEmpty then
      { b with phone := phones.headD "" }
    else b
  b

/-! ## Pagination -/

/-- Outcome of one page fetch (`self.session.get` + `raise_for_status` +
parsing).  `transport` is a `requests.RequestException` (network failure
or non-success status); `exc` is any other exception escaping the page
body, which the adapter does not catch. -/
inductive FetchOutcome (L : Type) where
  | ok (listings : List L)
  | transport
  | exc (msg : String)
deriving DecidableEq, Repr

/-- Records kept from one parsed page: a record is appended only if its
name is non-empty (`if business.name:`). -/
def extractPage {L : Type} (parse : L → UKBusiness) (listings : List L) : List UKBusiness :=
  (listings.map parse).filter (fun b => b.name ≠ "")

/-- Shared page loop of the paginated adapters.  The first component of a
successful result is the collected record list, the second the list of
page indices actually fetched (the fetch trace).  `stopOnEmpty` is true
for the adapters with an `if not listings: break` guard.  A `transport`
outcome breaks the loop keeping earlier records; an `exc` outcome
propagates, discarding them. -/
def scrapePagesLoop {L : Type} (parse : L → UKBusiness) (stopOnEmpty : Bool)
    (fetch : Nat → FetchOutcome L) (page : Nat) :
    Nat → Except String (List UKBusiness × List Nat)
  | 0 => .ok ([], [])
  | fuel + 1 =>
    match fetch page with
    | .transport => .ok ([], [page])
    | .exc m => .error m
    | .ok listings =>
      if stopOnEmpty && listings.isEmpty then .ok ([], [page])
      else
        match scrapePagesLoop parse stopOnEmpty fetch (page + 1) fuel with
        | .ok (rest, trace) => .ok (extractPage parse listings ++ rest, page :: trace)
        | .error m => .error m

/-- Embedding of `scrape_yell`: pages 1 .. max_pages, stopping on an empty
page.  The query and location only shape the request URL, which the fetch
oracle abstracts. -/
def scrape_yell (fetch : Nat → FetchOutcome YellListing)
    (_query _location : String) (max_pages : Nat) :
    Except String (List UKBusiness × List Nat) :=
  scrapePagesLoop parseYell true fetch 1 max_pages

/-- Embedding of `scrape_freeindex`: pages 1 .. max_pages, stopping on an
empty page. -/
def scrape_freeindex (fetch : Nat → FetchOutcome FreeindexListing)
    (_query _location : String) (max_pages : Nat) :
    Except String (List UKBusiness × List Nat) :=
  scrapePagesLoop parseFreeindex true fetch 1 max_pages

/-- Embedding of `scrape_thomson_local`: pages 1 .. max_pages, stopping on
an empty page. -/
def scrape_thomson_local (fetch : Nat → FetchOutcome ThomsonListing)
    (_query _location : String) (max_pages : Nat) :
    Except String (List UKBusiness × List Nat) :=
  scrapePagesLoop parseThomson true fetch 1 max_pages

/-- Embedding of `scrape_yelp_uk`: pages 0 .. max_pages - 1 (the request
offset is ten times the page index), with no empty-page stop in the
source. -/
def scrape_yelp_uk (fetch : Nat → FetchOutcome YelpListing)
    (_query _location : String) (max_pages : Nat) :
    Except String (List UKBusiness × List Nat) :=
  scrapePagesLoop parseYelp false fetch 0 max_pages

/-- Embedding of `scrape_google_maps`: a single fetch; a transport error
yields the empty collection (`except RequestException: pass`), any other
exception propagates.  `max_results` slices the container list. -/
def scrape_google_maps (fetch : FetchOutcome GoogleListing)
    (_query _location : String) (max_results : Nat) :
    Except String (List UKBusiness × List Nat) :=
  match fetch with
  | .transport => .ok ([], [0])
  | .exc m => .error m
  | .ok results => .ok (extractPage parseGoogle (results.take max_results), [0])

/-! ## Search orchestrator (`UKBusinessScraper.search`) -/

/-- Fetch oracles for the five source adapters, standing for the network
and markup environment one `search` call observes. -/
structure ScrapeEnv where
  yell : Nat → FetchOutcome YellListing
  freeindex : Nat → FetchOutcome FreeindexListing
  thomson : Nat → FetchOutcome ThomsonListing
  yelp : Nat → FetchOutcome YelpListing
  google : FetchOutcome GoogleListing

/-- Normalised name used by the deduplication step:
`biz.name.lower().strip()`. -/
def normName (b : UKBusiness) : String := pyStrip (pyLower b.name)

/-- Deduplication loop of `search`: keep a record when its normalised name
is non-empty and not seen yet.  The result lists only the orchestrator
output; `seen` is the `seen_names` set, modelled as the list of names
added so far. -/
def dedupLoop : List UKBusiness → List String → List UKBusiness
  | [], _ => []
  | b :: rest, seen =>
    let nameLower := normName b
    if nameLower ≠ "" ∧ nameLower ∉ seen then b :: dedupLoop rest (nameLower :: seen)
    else dedupLoop rest seen

/-- Deduplication by normalised name as `search` performs it, starting
from an empty seen set. -/
def dedupByName (l : List UKBusiness) : List UKBusiness := dedupLoop l []

/-- The `source_methods` table of `search`: source identifier mapped to
the result of invoking the corresponding adapter.  The second component of
each adapter result (the fetch trace) is dropped at this layer. -/
def source_methods (env : ScrapeEnv) (query location : String) (max_pages : Nat) :
    List (String × Except String (List UKBusiness)) :=
  [("yell", (scrape_yell env.yell query location max_pages).map (fun r => r.1)),
   ("google", (scrape_google_maps env.google query location (max_pages * 10)).map (fun r => r.1)),
   ("thomson", (scrape_thomson_local env.thomson query location max_pages).map (fun r => r.1)),
   ("freeindex", (scrape_freeindex env.freeindex query location max_pages).map (fun r => r.1)),
   ("yelp", (scrape_yelp_uk env.yelp query location max_pages).map (fun r => r.1))]

/-- Accumulation loop of `search`: for each listed identifier in order,
run its adapter when known, extend the accumulator on success, and swallow
an adapter exception (`except Exception: pass`). -/
def collectSources (env : ScrapeEnv) (query location : String) (max_pages : Nat)
    (sources : List String) : List UKBusiness :=
  sources.foldl (fun acc s =>
    match (source_methods env query location max_pages).lookup s with
    | some (.ok rs) => acc ++ rs
    | some (.error _) => acc
    | none => acc) []

/-- Embedding of `UKBusinessScraper.search`: resolve the default source
list, accumulate adapter results in caller order, deduplicate by
normalised name. -/
def search (env : ScrapeEnv) (query location : String)
    (sources : Option (List String)) (max_pages : Nat) : List UKBusiness :=
  dedupByName (collectSources env query location max_pages
    (sources.getD ["yell", "freeindex"]))

/-! ## Request boundary (`handler.do_POST`) -/

/-- JSON values as decoded by `json.loads`. -/
inductive JVal where
  | null
  | bool (b : Bool)
  | num (n : Int)
  | str (s : String)
  | arr (xs : List JVal)
  | obj (fields : List (String × JVal))

/-- Python truthiness of a decoded JSON value (`if not query ...`). -/
def pyTruthy : JVal → Bool
  | .null => false
  | .bool b => b
  | .num n => n != 0
  | .str s => s ≠ ""
  | .arr xs => !xs.isEmpty
  | .obj fields => !fields.isEmpty

/-- Embedding of `data.get(key, default)`: succeeds on a JSON object,
raises (`AttributeError`) on any other decoded value. -/
def dataGet (data : JVal) (key : String) (dflt : JVal) : Except String JVal :=
  match data with
  | .obj fields => .ok ((fields.lookup key).getD dflt)
  | _ => .error "AttributeError: get"

/-- Embedding of `min(data.get('max_pages', 2), 5)`: the page budget
passed to `search`, hard-capped at five.  A JSON boolean is an `int` in
Python and compares as zero or one; any other non-numeric value makes
`min` raise a `TypeError`. -/
def cappedMaxPages (data : JVal) : Except String Int :=
  match dataGet data ("max_pages") (.num 2) with
  | .error e => .error e
  | .ok (.num n) => .ok (min n 5)
  | .ok (.bool b) => .ok (min (if b then (1 : Int) else 0) 5)
  | .ok _ => .error "TypeError: min"

/-- Decoded inbound request.  `contentLength` is `none` when the
Content-Length header is missing or not an integer, so that
`int(self.headers['Content-Length'])` raises; `body` is `none` when the
body is not valid JSON, so that `json.loads` raises. -/
structure HTTPRequest where
  contentLength : Option Int
  body : Option JVal

/-- Response the handler writes: status code, JSON body, and whether the
wildcard CORS header was sent (only the success path sends it). -/
structure HTTPResponse where
  status : Nat
  body : JVal
  cors : Bool

/-- JSON error body (`{'error': msg}`). -/
def errJson (msg : String) : JVal := JVal.obj [("error", .str msg)]

/-- JSON encoding of one record (`asdict`). -/
def businessToJson (b : UKBusiness) : JVal :=
  JVal.obj
    [("name", .str b.name), ("email", .str b.email), ("phone", .str b.phone),
     ("website", .str b.website), ("address", .str b.address), ("city", .str b.city),
     ("county", .str b.county), ("postcode", .str b.postcode), ("country", .str b.country),
     ("industry", .str b.industry), ("description", .str b.description),
     ("company_number", .str b.company_number), ("revenue", .str b.revenue),
     ("employees", .str b.employees), ("year_founded", .str b.year_founded),
     ("company_status", .str b.company_status), ("sic_codes", .str b.sic_codes),
     ("rating", .str b.rating), ("review_count", .str b.review_count),
     ("opening_hours", .str b.opening_hours),
     ("social_media", .obj (b.social_media.map (fun p => (p.1, JVal.str p.2)))),
     ("source", .str b.source), ("scraped_at", .str b.scraped_at)]

/-- Success body of `do_POST`: record list plus echoed count, query,
location and sources. -/
def resultJson (businesses : List UKBusiness) (query location sources : JVal) : JVal :=
  JVal.obj
    [("businesses", .arr (businesses.map businessToJson)),
     ("count", .num (businesses.length : Int)),
     ("query", query), ("location", location), ("sources", sources)]

/-- Body of the `try` block of `do_POST`, parametrised by the orchestrator
call (`scraper.search`), which receives the decoded query, location and
sources values and the capped page budget.  An `.error` is an exception
reaching the `except` clause. -/
def tryBody (searchFn : JVal → JVal → JVal → Int → Except String (List UKBusiness))
    (body? : Option JVal) : Except String HTTPResponse :=
  match body? with
  | none => .error "json decode error"
  | some data =>
    match dataGet data ("query") (.str "") with
    | .error e => .error e
    | .ok query =>
      match dataGet data ("location") (.str "") with
      | .error e => .error e
      | .ok location =>
        match dataGet data ("sources") (.arr [.str "yell", .str "freeindex"]) with
        | .error e => .error e
        | .ok sources =>
          match cappedMaxPages data with
          | .error e => .error e
          | .ok maxPages =>
            if !(pyTruthy query) || !(pyTruthy location) then
              .ok ⟨400, errJson ("Missing query or location"), false⟩
            else
              match searchFn query location sources maxPages with
              | .error e => .error e
              | .ok businesses =>
                .ok ⟨200, resultJson businesses query location sources, true⟩

/-- Embedding of `handler.do_POST`.  Reading and parsing the
Content-Length header happens before the `try` block, so its failure is
an exception escaping the handler (the overall `.error` case); inside the
`try`, any failure is converted to a 500 response with the error
message. -/
def do_POST (searchFn : JVal → JVal → JVal → Int → Except String (List UKBusiness))
    (req : HTTPRequest) : Except String HTTPResponse :=
  match req.contentLength with
  | none => .error "invalid Content-Length header"
  | some _ =>
    .ok (match tryBody searchFn req.body with
         | .ok resp => resp
         | .error e => ⟨500, errJson e, false⟩)

/-! ## Specification-side definitions

These definitions follow the wording of the specification, not the
source; the theorems compare the source embedding against them. -/

/-- Modelled from the spec: deduplication that keeps the first occurrence
of each normalised name in iteration order and discards every later
record with the same normalised name. -/
def specFirstOccurrence : List UKBusiness → List UKBusiness
  | [] => []
  | b :: rest =>
    b :: specFirstOccurrence (rest.filter (fun b2 => normName b2 ≠ normName b))
termination_by l => l.length
decreasing_by
  simp only [List.length_cons]
  exact Nat.lt_succ_of_le (List.length_filter_le _ _)

/-- Modelled from the spec: the UK postcode grammar in uppercase — one or
two letters, one digit, an optional letter or digit, whitespace, one
digit, two letters.  The whitespace region may be empty, matching the
`\s*` of the source pattern the grammar describes. -/
def SpecPostcode (m : List Char) : Prop :=
  ∃ (letters : List Char) (d : Char) (opt : List Char) (ws : List Char) (d2 l1 l2 : Char),
    m = letters ++ d :: (opt ++ ws ++ [d2, l1, l2]) ∧
    1 ≤ letters.length ∧ letters.length ≤ 2 ∧
    (∀ c ∈ letters, isUpperC c = true) ∧
    isDigitC d = true ∧
    (opt = [] ∨ ∃ c, opt = [c] ∧ (isUpperC c = true ∨ isDigitC c = true)) ∧
    (∀ c ∈ ws, isSpaceC c = true) ∧
    isDigitC d2 = true ∧ isUpperC l1 = true ∧ isUpperC l2 = true

/-! ## Concrete sample inputs used by witnesses and counterexamples -/

/-- Environment in which every fetch succeeds with an empty page. -/
def emptyEnv : ScrapeEnv :=
  { yell := fun _ => .ok [], freeindex := fun _ => .ok [], thomson := fun _ => .ok [],
    yelp := fun _ => .ok [], google := .ok [] }

/-- Yell listing whose name differs from the FreeIndex one only by case. -/
def yellAcmeListing : YellListing := { nameMain := some ("ACME LTD") }

/-- FreeIndex listing with the same name up to case. -/
def freeindexAcmeListing : FreeindexListing := { nameMain := some ("Acme Ltd") }

/-- Environment where Yell and FreeIndex each return one record with the
same normalised name. -/
def envAcme : ScrapeEnv :=
  { emptyEnv with
    yell := fun p => if p = 1 then .ok [yellAcmeListing] else .ok [],
    freeindex := fun p => if p = 1 then .ok [freeindexAcmeListing] else .ok [] }

/-- Two FreeIndex listings with distinct names. -/
def freeindexAlphaListing : FreeindexListing := { nameMain := some ("Alpha Plumbing") }

def freeindexBetaListing : FreeindexListing := { nameMain := some ("Beta Bakery") }

/-- Environment where the Yell adapter raises on every call and FreeIndex
returns two uniquely named records. -/
def envRaise : ScrapeEnv :=
  { emptyEnv with
    yell := fun _ => .exc ("boom"),
    freeindex := fun p =>
      if p = 1 then .ok [freeindexAlphaListing, freeindexBetaListing] else .ok [] }

/-- Yell fetch oracle whose first page already fails with a transport
error. -/
def yellTransportFetch : Nat → FetchOutcome YellListing := fun _ => .transport

/-- Yelp listing with a non-empty name. -/
def yelpBetaListing : YelpListing := { nameText := some ("Beta Bakery") }

/-- Yelp fetch oracle: page 0 is empty, page 1 has one listing. -/
def yelpEmptyThenFullFetch : Nat → FetchOutcome YelpListing := fun p =>
  if p = 1 then .ok [yelpBetaListing] else .ok []

/-- Yell fetch oracle: page 1 has one listing, page 2 is empty. -/
def yellFullThenEmptyFetch : Nat → FetchOutcome YellListing := fun p =>
  if p = 1 then .ok [yellAcmeListing] else .ok []

/-- Orchestrator stub used by handler witnesses: succeeds with no
records. -/
def searchFnEmpty : JVal → JVal → JVal → Int → Except String (List UKBusiness) :=
  fun _ _ _ _ => .ok []

/-- Request with max_pages 100 and a parseable Content-Length. -/
def reqMaxPages100 : HTTPRequest :=
  { contentLength := some 42,
    body := some (.obj [("query", .str ("plumbers")), ("location", .str ("Leeds")),
                        ("max_pages", .num 100)]) }

/-- Request whose Content-Length header does not parse as an integer. -/
def reqBadContentLength : HTTPRequest :=
  { contentLength := none,
    body := some (.obj [("query", .str ("plumbers")), ("location", .str ("Leeds"))]) }

/-! ## Statement-level definitions -/

/-- Listings a fetch oracle returns for page `i`, empty on a failure
outcome; used to describe the records collected from prior pages. -/
def okListings {L : Type} (fetch : Nat → FetchOutcome L) (i : Nat) : List L :=
  match fetch i with
  | .ok ls => ls
  | _ => []

/-- Property of a paginated adapter: when every page before `p` succeeded
with listings and page `p` fails with a transport error, the invocation
returns normally with exactly the records of the prior pages, and the
fetch trace stops at `p` (no retry, no later page). -/
def TransportStops {L : Type} (parse : L → UKBusiness) (startPage : Nat)
    (scrapeFn : (Nat → FetchOutcome L) → String → String → Nat →
      Except String (List UKBusiness × List Nat)) : Prop :=
  ∀ (fetch : Nat → FetchOutcome L) (q loc : String) (mp p : Nat),
    startPage ≤ p → p < startPage + mp →
    (∀ i, startPage ≤ i → i < p → ∃ ls, fetch i = FetchOutcome.ok ls ∧ ls ≠ []) →
    fetch p = FetchOutcome.transport →
    scrapeFn fetch q loc mp =
      Except.ok
        (((List.range' startPage (p - startPage)).map
            (fun i => extractPage parse (okListings fetch i))).flatten,
         List.range' startPage (p - startPage + 1))

/-- Property of a paginated adapter: when every page before `p` succeeded
with listings and page `p` succeeds with no listing containers, the
invocation returns the records of the prior pages and the fetch trace
stops at `p`. -/
def EmptyPageStops {L : Type} (parse : L → UKBusiness) (startPage : Nat)
    (scrapeFn : (Nat → FetchOutcome L) → String → String → Nat →
      Except String (List UKBusiness × List Nat)) : Prop :=
  ∀ (fetch : Nat → FetchOutcome L) (q loc : String) (mp p : Nat),
    startPage ≤ p → p < startPage + mp →
    (∀ i, startPage ≤ i → i < p → ∃ ls, fetch i = FetchOutcome.ok ls ∧ ls ≠ []) →
    fetch p = FetchOutcome.ok [] →
    scrapeFn fetch q loc mp =
      Except.ok
        (((List.range' startPage (p - startPage)).map
            (fun i => extractPage parse (okListings fetch i))).flatten,
         List.range' startPage (p - startPage + 1))

/-- Property of a paginated adapter: when every page in the budget
succeeds (empty or not), the invocation fetches the whole page range. -/
def FetchesAllOkPages {L : Type} (parse : L → UKBusiness) (startPage : Nat)
    (scrapeFn : (Nat → FetchOutcome L) → String → String → Nat →
      Except String (List UKBusiness × List Nat)) : Prop :=
  ∀ (fetch : Nat → FetchOutcome L) (q loc : String) (mp : Nat),
    (∀ i, startPage ≤ i → i < startPage + mp → ∃ ls, fetch i = FetchOutcome.ok ls) →
    scrapeFn fetch q loc mp =
      Except.ok
        (((List.range' startPage mp).map
            (fun i => extractPage parse (okListings fetch i))).flatten,
         List.range' startPage mp)

/-- Shape of a raw (pre-uppercasing) postcode pattern match. -/
def RawPostcode (m : List Char) : Prop :=
  ∃ (letters : List Char) (d : Char) (opt : List Char) (ws : List Char) (d2 l1 l2 : Char),
    m = letters ++ d :: (opt ++ ws ++ [d2, l1, l2]) ∧
    1 ≤ letters.length ∧ letters.length ≤ 2 ∧
    (∀ c ∈ letters, isLetterC c = true) ∧
    isDigitC d = true ∧
    (opt = [] ∨ ∃ c, opt = [c] ∧ isLetterOrDigitC c = true) ∧
    (∀ c ∈ ws, isSpaceC c = true) ∧
    isDigitC d2 = true ∧ isLetterC l1 = true ∧ isLetterC l2 = true

/-! ## Lemmas about page extraction and the page loop -/

/-- Records kept from a page all carry a non-empty name. -/
theorem extractPage_names {L : Type} (parse : L → UKBusiness) (listings : List L) :
    ∀ b ∈ extractPage parse listings, b.name ≠ "" := by
  intro b hb
  have h := List.of_mem_filter hb
  simpa using h

/-- Worker lemma: the page loop stops at the first transport error or
(for adapters with the guard) first empty page, returning exactly the
records of the prior pages and fetching exactly the pages up to and
including the stopping one. -/
theorem scrapeLoop_stop_aux {L : Type} (parse : L → UKBusiness) (so : Bool)
    (fetch : Nat → FetchOutcome L) (p : Nat) :
    ∀ (fuel page : Nat), page ≤ p → p < page + fuel →
      (∀ i, page ≤ i → i < p → ∃ ls, fetch i = FetchOutcome.ok ls ∧ ls ≠ []) →
      (fetch p = FetchOutcome.transport ∨ (so = true ∧ fetch p = FetchOutcome.ok [])) →
      scrapePagesLoop parse so fetch page fuel =
        Except.ok
          (((List.range' page (p - page)).map
              (fun i => extractPage parse (okListings fetch i))).flatten,
           List.range' page (p - page + 1)) := by
  intro fuel
  induction fuel with
  | zero => intro page h1 h2 _ _; omega
  | succ fuel ih =>
    intro page h1 h2 hprior hstop
    by_cases hpage : page = p
    · subst hpage
      rcases hstop with htr | ⟨hso, hok⟩
      · simp [scrapePagesLoop, htr, Nat.sub_self, List.range']
      · simp [scrapePagesLoop, hok, hso, Nat.sub_self, List.range', extractPage]
    · have hlt : page < p := by omega
      obtain ⟨ls, hls, hne⟩ := hprior page (Nat.le_refl _) hlt
      have hrec := ih (page + 1) (by omega) (by omega)
        (fun i hi1 hi2 => hprior i (by omega) hi2) hstop
      have hempty : ls.isEmpty = false := by
        cases ls with
        | nil => exact absurd rfl hne
        | cons a tl => rfl
      have hk : p - page = (p - (page + 1)) + 1 := by omega
      simp only [scrapePagesLoop, hls, hempty, Bool.and_false, Bool.false_eq_true,
        if_false, hrec, hk, List.range', List.map_cons, List.flatten_cons]
      simp [okListings, hls]

/-- Worker lemma: when every page in the remaining budget succeeds (and,
for adapters with the empty-page guard, is non-empty), the loop fetches
the whole range. -/
theorem scrapeLoop_all_aux {L : Type} (parse : L → UKBusiness) (so : Bool)
    (fetch : Nat → FetchOutcome L) :
    ∀ (fuel page : Nat),
      (∀ i, page ≤ i → i < page + fuel →
        ∃ ls, fetch i = FetchOutcome.ok ls ∧ (so = true → ls ≠ [])) →
      scrapePagesLoop parse so fetch page fuel =
        Except.ok
          (((List.range' page fuel).map
              (fun i => extractPage parse (okListings fetch i))).flatten,
           List.range' page fuel) := by
  intro fuel
  induction fuel with
  | zero => intro page _; simp [scrapePagesLoop, List.range']
  | succ fuel ih =>
    intro page hall
    obtain ⟨ls, hls, hne⟩ := hall page (Nat.le_refl _) (by omega)
    have hrec := ih (page + 1) (fun i hi1 hi2 => hall i (by omega) (by omega))
    have hguard : (so && ls.isEmpty) = false := by
      cases hso : so with
      | false => rfl
      | true =>
        have hne2 := hne hso
        cases ls with
        | nil => exact absurd rfl hne2
        | cons a tl => simp
    simp only [scrapePagesLoop, hls, hguard, Bool.false_eq_true, if_false, hrec,
      List.range', List.map_cons, List.flatten_cons]
    simp [okListings, hls]

/-- Worker lemma: every record a successful loop run collects has a
non-empty name. -/
theorem scrapeLoop_names {L : Type} (parse : L → UKBusiness) (so : Bool)
    (fetch : Nat → FetchOutcome L) :
    ∀ (fuel page : Nat) (res : List UKBusiness) (trace : List Nat),
      scrapePagesLoop parse so fetch page fuel = Except.ok (res, trace) →
      ∀ b ∈ res, b.name ≠ "" := by
  intro fuel
  induction fuel with
  | zero =>
    intro page res trace h b hb
    simp [scrapePagesLoop] at h
    rcases h with ⟨h1, _⟩
    subst h1
    simp at hb
  | succ fuel ih =>
    intro page res trace h b hb
    rw [scrapePagesLoop] at h
    cases hf : fetch page with
    | transport =>
      rw [hf] at h
      simp at h
      rcases h with ⟨h1, _⟩
      subst h1
      simp at hb
    | exc m => rw [hf] at h; simp at h
    | ok listings =>
      rw [hf] at h
      by_cases hguard : (so && listings.isEmpty) = true
      · simp only [hguard, if_true] at h
        simp at h
        rcases h with ⟨h1, _⟩
        subst h1
        simp at hb
      · simp only [hguard, if_false] at h
        cases hrec : scrapePagesLoop parse so fetch (page + 1) fuel with
        | error m => rw [hrec] at h; simp at h
        | ok pr =>
          rw [hrec] at h
          obtain ⟨rest, trace'⟩ := pr
          simp at h
          rcases h with ⟨h1, _⟩
          subst h1
          rcases List.mem_append.mp hb with hmem | hmem
          · exact extractPage_names parse listings b hmem
          · exact ih (page + 1) rest trace' hrec b hmem

/-! ## Lemmas about deduplication -/

/-- A record with a non-empty normalised name has a non-empty name. -/
theorem name_ne_of_normName_ne {b : UKBusiness} (h : normName b ≠ "") : b.name ≠ "" := by
  intro hname
  apply h
  simp [normName, hname, pyLower, pyStrip, pyStripL]

/-- Every record surviving the deduplication loop has a non-empty
normalised name. -/
theorem dedupLoop_mem_normName :
    ∀ (l : List UKBusiness) (seen : List String) (b : UKBusiness),
      b ∈ dedupLoop l seen → normName b ≠ "" := by
  intro l
  induction l with
  | nil => intro seen b hb; simp [dedupLoop] at hb
  | cons a rest ih =>
    intro seen b hb
    simp only [dedupLoop] at hb
    by_cases hc : normName a ≠ "" ∧ normName a ∉ seen
    · rw [if_pos hc] at hb
      rcases List.mem_cons.mp hb with h1 | hmem
      · subst h1; exact hc.1
      · exact ih _ b hmem
    · rw [if_neg hc] at hb
      exact ih _ b hb

/-- The deduplication loop agrees with the specification-side
first-occurrence filter, relative to the running seen set, whenever all
normalised names are non-empty. -/
theorem dedupLoop_spec :
    ∀ (l : List UKBusiness) (seen : List String),
      (∀ b ∈ l, normName b ≠ "") →
      dedupLoop l seen =
        specFirstOccurrence (l.filter (fun b => normName b ∉ seen)) := by
  intro l
  induction l with
  | nil => intro seen _; simp [dedupLoop, specFirstOccurrence]
  | cons a rest ih =>
    intro seen h
    have ha : normName a ≠ "" := h a (List.mem_cons_self a rest)
    have hrest : ∀ b ∈ rest, normName b ≠ "" :=
      fun b hb => h b (List.mem_cons_of_mem a hb)
    by_cases hseen : normName a ∈ seen
    · have hcond : ¬(normName a ≠ "" ∧ normName a ∉ seen) := by
        intro hcon; exact hcon.2 hseen
      simp only [dedupLoop, if_neg hcond]
      rw [ih seen hrest]
      congr 1
      simp [List.filter_cons, hseen]
    · have hcond : normName a ≠ "" ∧ normName a ∉ seen := ⟨ha, hseen⟩
      simp only [dedupLoop, if_pos hcond]
      rw [ih (normName a :: seen) hrest]
      have hfilter :
          rest.filter (fun b => normName b ∉ normName a :: seen) =
            (rest.filter (fun b => normName b ∉ seen)).filter
              (fun b2 => normName b2 ≠ normName a) := by
        rw [List.filter_filter]
        apply List.filter_congr
        intro x _
        by_cases h1 : normName x = normName a
        · simp [List.mem_cons, h1]
        · by_cases h2 : normName x ∈ seen <;> simp [List.mem_cons, h1, h2]
      rw [hfilter]
      have hr :
          (a :: rest).filter (fun b => normName b ∉ seen) =
            a :: rest.filter (fun b => normName b ∉ seen) := by
        simp [List.filter_cons, hseen]
      rw [hr, specFirstOccurrence]

/-- Starting from the empty seen set, `dedupByName` is exactly the
first-occurrence deduplication of the specification. -/
theorem dedupByName_spec (l : List UKBusiness) (h : ∀ b ∈ l, normName b ≠ "") :
    dedupByName l = specFirstOccurrence l := by
  rw [dedupByName, dedupLoop_spec l [] h]
  congr 1
  simp

/-! ## Lemmas about the orchestrator loop -/

/-- A source whose lookup yields an error result, or no table entry at
all, contributes nothing: removing it from the source list leaves the
accumulated records unchanged. -/
theorem collectSources_skip (env : ScrapeEnv) (q loc : String) (mp : Nat)
    (pre post : List String) (s : String)
    (h : (source_methods env q loc mp).lookup s = none ∨
      ∃ msg, (source_methods env q loc mp).lookup s = some (Except.error msg)) :
    collectSources env q loc mp (pre ++ s :: post) =
      collectSources env q loc mp (pre ++ post) := by
  unfold collectSources
  rw [List.foldl_append, List.foldl_append, List.foldl_cons]
  congr 1
  rcases h with h | ⟨msg, h⟩ <;> simp [h]

/-- An identifier outside the five known sources has no entry in the
method table. -/
theorem source_methods_lookup_none (env : ScrapeEnv) (q loc : String) (mp : Nat)
    (s : String)
    (h : s ∉ (["yell", "google", "thomson", "freeindex", "yelp"] : List String)) :
    (source_methods env q loc mp).lookup s = none := by
  simp only [List.mem_cons, List.not_mem_nil, or_false, not_or] at h
  obtain ⟨h1, h2, h3, h4, h5⟩ := h
  have e1 : (s == "yell") = false := by simp [h1]
  have e2 : (s == "google") = false := by simp [h2]
  have e3 : (s == "thomson") = false := by simp [h3]
  have e4 : (s == "freeindex") = false := by simp [h4]
  have e5 : (s == "yelp") = false := by simp [h5]
  simp [source_methods, List.lookup, e1, e2, e3, e4, e5]

/-- Every record in the orchestrator output has a non-empty name. -/
theorem search_mem_name_ne (env : ScrapeEnv) (q loc : String)
    (sources : Option (List String)) (mp : Nat) :
    ∀ b ∈ search env q loc sources mp, b.name ≠ "" := by
  intro b hb
  simp only [search, dedupByName] at hb
  exact name_ne_of_normName_ne (dedupLoop_mem_normName _ [] b hb)

/-! ## Lemmas about the request boundary -/

/-- A response produced inside the `try` block is a 400 or a 200. -/
theorem tryBody_ok_status (f : JVal → JVal → JVal → Int → Except String (List UKBusiness))
    (body? : Option JVal) (resp : HTTPResponse)
    (h : tryBody f body? = Except.ok resp) :
    resp.status = 400 ∨ resp.status = 200 := by
  unfold tryBody at h
  repeat' split at h
  all_goals simp_all
  all_goals (cases h; simp)

/-- With a parseable Content-Length the handler always responds, with
status 200, 400 or 500. -/
theorem do_POST_total (f : JVal → JVal → JVal → Int → Except String (List UKBusiness))
    (cl : Int) (body? : Option JVal) :
    ∃ resp, do_POST f ⟨some cl, body?⟩ = Except.ok resp ∧
      (resp.status = 200 ∨ resp.status = 400 ∨ resp.status = 500) := by
  unfold do_POST
  cases h : tryBody f body? with
  | ok resp =>
    refine ⟨resp, by simp, ?_⟩
    rcases tryBody_ok_status f body? resp h with h4 | h2
    · right; left; exact h4
    · left; exact h2
  | error e => exact ⟨⟨500, errJson e, false⟩, by simp, by simp⟩

/-! ## Inversion lemmas for the matchers -/

/-- Inversion for `mChar`: a success consumes exactly one class
character. -/
theorem mChar_inv {p : Char → Bool} {cs : List Char}
    {k : List Char → Option (List Char)} {r : List Char}
    (h : mChar p cs k = some r) :
    ∃ c rest, cs = c :: rest ∧ p c = true ∧ k rest = some r := by
  cases cs with
  | nil => simp [mChar] at h
  | cons c rest =>
    by_cases hp : p c = true
    · refine ⟨c, rest, rfl, hp, ?_⟩
      simpa [mChar, hp] using h
    · simp [mChar, hp] at h

/-- Inversion for `mOpt`: either the inner matcher succeeded or it was
skipped. -/
theorem mOpt_inv {m : MatchK} {cs : List Char}
    {k : List Char → Option (List Char)} {r : List Char}
    (h : mOpt m cs k = some r) :
    m cs k = some r ∨ k cs = some r := by
  rw [mOpt] at h
  cases hm : m cs k with
  | some r2 =>
    rw [hm] at h
    dsimp only at h
    left
    exact h
  | none =>
    rw [hm] at h
    dsimp only at h
    right
    exact h

/-- Inversion for `mStar`: a success consumes a (possibly empty) run of
class characters. -/
theorem mStar_inv {p : Char → Bool} :
    ∀ {cs : List Char} {k : List Char → Option (List Char)} {r : List Char},
      mStar p cs k = some r →
      ∃ pre rest, cs = pre ++ rest ∧ (∀ c ∈ pre, p c = true) ∧ k rest = some r := by
  intro cs
  induction cs with
  | nil =>
    intro k r h
    exact ⟨[], [], rfl, by simp, by simpa [mStar] using h⟩
  | cons c rest ih =>
    intro k r h
    rw [mStar] at h
    by_cases hp : p c = true
    · rw [if_pos hp] at h
      cases hm : mStar p rest k with
      | some r2 =>
        rw [hm] at h
        simp at h
        subst h
        obtain ⟨pre, rest2, heq, hall, hk⟩ := ih hm
        refine ⟨c :: pre, rest2, by simp [heq], ?_, hk⟩
        intro x hx
        rcases List.mem_cons.mp hx with h1 | h2
        · subst h1; exact hp
        · exact hall x h2
      | none =>
        rw [hm] at h
        exact ⟨[], c :: rest, rfl, by simp, h⟩
    · rw [if_neg hp] at h
      exact ⟨[], c :: rest, rfl, by simp, h⟩

/-- Inversion for `mRep`: a success consumes between `lo` and `hi` class
characters. -/
theorem mRep_inv {p : Char → Bool} :
    ∀ {hi lo : Nat} {cs : List Char} {k : List Char → Option (List Char)} {r : List Char},
      mRep p lo hi cs k = some r →
      ∃ pre rest, cs = pre ++ rest ∧ (∀ c ∈ pre, p c = true) ∧
        lo ≤ pre.length ∧ pre.length ≤ hi ∧ k rest = some r := by
  intro hi
  induction hi with
  | zero =>
    intro lo cs k r h
    rw [mRep] at h
    dsimp only at h
    by_cases hlo : lo = 0
    · rw [if_pos hlo] at h
      exact ⟨[], cs, rfl, by simp, by simp [hlo], by simp, h⟩
    · rw [if_neg hlo] at h
      simp at h
  | succ hi ih =>
    intro lo cs k r h
    cases cs with
    | nil =>
      rw [mRep] at h
      dsimp only at h
      by_cases hlo : lo = 0
      · rw [if_pos hlo] at h
        exact ⟨[], [], rfl, by simp, by simp [hlo], by simp, h⟩
      · rw [if_neg hlo] at h
        simp at h
    | cons c rest =>
      rw [mRep] at h
      dsimp only at h
      by_cases hp : p c = true
      · rw [if_pos hp] at h
        cases hm : mRep p (lo - 1) hi rest k with
        | some r2 =>
          rw [hm] at h
          simp at h
          subst h
          obtain ⟨pre, rest2, heq, hall, hlo2, hhi2, hk⟩ := ih hm
          refine ⟨c :: pre, rest2, by simp [heq], ?_, by simp; omega, by simp; omega, hk⟩
          intro x hx
          rcases List.mem_cons.mp hx with h1 | h2
          · subst h1; exact hp
          · exact hall x h2
        | none =>
          rw [hm] at h
          by_cases hlo : lo = 0
          · rw [if_pos hlo] at h
            exact ⟨[], c :: rest, rfl, by simp, by simp [hlo], by simp, h⟩
          · rw [if_neg hlo] at h
            simp at h
      · rw [if_neg hp] at h
        by_cases hlo : lo = 0
        · rw [if_pos hlo] at h
          exact ⟨[], c :: rest, rfl, by simp, by simp [hlo], by simp, h⟩
        · rw [if_neg hlo] at h
          simp at h

/-- Inversion for `runMatch`. -/
theorem runMatch_inv {m : MatchK} {cs matched rest : List Char}
    (h : runMatch m cs = some (matched, rest)) :
    m cs some = some rest ∧ matched = cs.take (cs.length - rest.length) := by
  unfold runMatch at h
  cases hm : m cs some with
  | none => rw [hm] at h; simp at h
  | some rest2 =>
    rw [hm] at h
    simp at h
    obtain ⟨h1, h2⟩ := h
    subst h2
    exact ⟨rfl, h1.symm⟩

/-- Inversion for `research`: a reported match is a `runMatch` success at
some position. -/
theorem research_inv {m : MatchK} :
    ∀ {cs r : List Char}, research m cs = some r →
      ∃ cs2 rest, runMatch m cs2 = some (r, rest) := by
  intro cs
  induction cs with
  | nil => intro r h; simp [research] at h
  | cons c rest ih =>
    intro r h
    rw [research] at h
    cases hm : runMatch m (c :: rest) with
    | some pr =>
      obtain ⟨matched, after⟩ := pr
      rw [hm] at h
      simp at h
      subst h
      exact ⟨c :: rest, after, hm⟩
    | none =>
      rw [hm] at h
      exact ih h

/-! ## Uppercasing preserves the character classes of the postcode match -/

/-- Uppercasing an ASCII letter yields an uppercase letter. -/
theorem upperChar_of_letter {c : Char} (h : isLetterC c = true) :
    isUpperC (pyUpperChar c) = true := by
  have hmem : c ∈ asciiLetters := by simpa [isLetterC] using h
  have hall : asciiLetters.all (fun x => isUpperC (pyUpperChar x)) = true := by decide
  exact List.all_eq_true.mp hall c hmem

/-- Uppercasing leaves a digit unchanged. -/
theorem upperChar_of_digit {c : Char} (h : isDigitC c = true) : pyUpperChar c = c := by
  have hmem : c ∈ asciiDigits := by simpa [isDigitC] using h
  have hall : asciiDigits.all (fun x => pyUpperChar x == x) = true := by decide
  exact eq_of_beq (List.all_eq_true.mp hall c hmem)

/-- Uppercasing leaves a whitespace character unchanged. -/
theorem upperChar_of_space {c : Char} (h : isSpaceC c = true) : pyUpperChar c = c := by
  have hmem : c ∈ pyWhitespace := by simpa [isSpaceC] using h
  have hall : pyWhitespace.all (fun x => pyUpperChar x == x) = true := by decide
  exact eq_of_beq (List.all_eq_true.mp hall c hmem)

/-- Uppercasing a raw postcode match yields a match of the uppercase
grammar of the specification. -/
theorem rawPostcode_upper {m : List Char} (h : RawPostcode m) :
    SpecPostcode (m.map pyUpperChar) := by
  obtain ⟨letters, d, opt, ws, d2, l1, l2, heq, h1, h2, hlet, hd, hopt, hws, hd2, hl1, hl2⟩ := h
  refine ⟨letters.map pyUpperChar, pyUpperChar d, opt.map pyUpperChar, ws.map pyUpperChar,
    pyUpperChar d2, pyUpperChar l1, pyUpperChar l2, ?_, ?_, ?_, ?_, ?_, ?_, ?_, ?_, ?_, ?_⟩
  · rw [heq]; simp
  · simpa using h1
  · simpa using h2
  · intro c hc
    obtain ⟨x, hx, hfx⟩ := List.mem_map.mp hc
    rw [← hfx]
    exact upperChar_of_letter (hlet x hx)
  · rw [upperChar_of_digit hd]; exact hd
  · rcases hopt with h0 | ⟨c, h0, hc⟩
    · left; rw [h0]; rfl
    · right
      refine ⟨pyUpperChar c, by rw [h0]; rfl, ?_⟩
      have hc2 : isLetterC c = true ∨ isDigitC c = true := by
        simpa [isLetterOrDigitC] using hc
      rcases hc2 with hcl | hcd
      · left; exact upperChar_of_letter hcl
      · right; rw [upperChar_of_digit hcd]; exact hcd
  · intro c hc
    obtain ⟨x, hx, hfx⟩ := List.mem_map.mp hc
    rw [← hfx, upperChar_of_space (hws x hx)]
    exact hws x hx
  · rw [upperChar_of_digit hd2]; exact hd2
  · exact upperChar_of_letter hl1
  · exact upperChar_of_letter hl2

/-! ## Decomposition of a postcode pattern match -/

/-- A successful run of the postcode matcher consumes exactly a raw
postcode match. -/
theorem postcodeM_inv {cs r : List Char} (h : postcodeM cs some = some r) :
    ∃ pre, cs = pre ++ r ∧ RawPostcode pre := by
  rw [postcodeM] at h
  simp only [mSeq] at h
  obtain ⟨letters, rest1, hcs1, hletters, hlo1, hhi1, h1⟩ := mRep_inv h
  obtain ⟨d, rest2, hr1, hd, h2⟩ := mChar_inv h1
  have hoptS : ∃ opt rest3, rest2 = opt ++ rest3 ∧
      (opt = [] ∨ ∃ c, opt = [c] ∧ isLetterOrDigitC c = true) ∧
      mStar isSpaceC rest3
        (fun rest4 => mChar isDigitC rest4
          (fun rest5 => mRep isLetterC 2 2 rest5 some)) = some r := by
    rcases mOpt_inv h2 with hin | hskip
    · obtain ⟨copt, rest3, hr2, hcopt, h3⟩ := mChar_inv hin
      exact ⟨[copt], rest3, by simp [hr2], Or.inr ⟨copt, rfl, hcopt⟩, h3⟩
    · exact ⟨[], rest2, rfl, Or.inl rfl, hskip⟩
  obtain ⟨opt, rest3, hr2, hopt, h3⟩ := hoptS
  obtain ⟨ws, rest4, hr3, hws, h4⟩ := mStar_inv h3
  obtain ⟨d2, rest5, hr4, hd2, h5⟩ := mChar_inv h4
  obtain ⟨tl, rest6, hr5, htl, hlo6, hhi6, h6⟩ := mRep_inv h5
  have hrest6 : rest6 = r := by simpa using h6
  have htl2 : tl.length = 2 := by omega
  obtain ⟨l1, l2, htl12⟩ := List.length_eq_two.mp htl2
  refine ⟨letters ++ d :: (opt ++ (ws ++ [d2, l1, l2])), ?_, ?_⟩
  · rw [hcs1, hr1, hr2, hr3, hr4, hr5, htl12, hrest6]
    simp
  · refine ⟨letters, d, opt, ws, d2, l1, l2, by simp, hlo1, hhi1, hletters, hd, hopt,
      hws, hd2, ?_, ?_⟩
    · exact htl l1 (by rw [htl12]; exact List.mem_cons_self _ _)
    · exact htl l2 (by rw [htl12]; simp)

/-- Claim-level characterisation of `_extract_uk_postcode`: a non-empty
result is an uppercase postcode-grammar match. -/
theorem extract_uk_postcode_spec (t : String) (h : extract_uk_postcode t ≠ "") :
    SpecPostcode (extract_uk_postcode t).toList := by
  unfold extract_uk_postcode at h ⊢
  cases hres : research postcodeM t.toList with
  | none =>
    rw [hres] at h
    exact absurd rfl h
  | some m =>
    obtain ⟨cs2, rest, hrun⟩ := research_inv hres
    obtain ⟨hm, hmatched⟩ := runMatch_inv hrun
    obtain ⟨pre, hcs2, hraw⟩ := postcodeM_inv hm
    have hlen : cs2.length - rest.length = pre.length := by
      rw [hcs2]; simp
    have hpre : m = pre := by
      rw [hmatched, hlen, hcs2, List.take_left]
    show SpecPostcode (List.map pyUpperChar m)
    rw [hpre]
    exact rawPostcode_upper hraw

/-! ## Postcode invariants of the adapter field extraction -/

/-- Postcode invariant for Yell records. -/
theorem parseYell_postcode_spec (l : YellListing) (h : (parseYell l).postcode ≠ "") :
    SpecPostcode ((parseYell l).postcode).toList := by
  unfold parseYell at h ⊢
  cases hn : l.nameMain <|> l.nameAlt <;>
  cases ha : l.addressMain <|> l.addressAlt <;>
  cases hp : l.phoneMain <|> l.phoneAlt <;>
  cases hr : l.ratingText <;>
  cases hd : l.descriptionText <;>
  cases hc : l.categories.isEmpty <;>
  simp only [hn, ha, hp, hr, hd, hc] at h ⊢ <;>
  first
    | exact absurd rfl h
    | exact extract_uk_postcode_spec _ h

/-- Postcode invariant for FreeIndex records. -/
theorem parseFreeindex_postcode_spec (l : FreeindexListing)
    (h : (parseFreeindex l).postcode ≠ "") :
    SpecPostcode ((parseFreeindex l).postcode).toList := by
  unfold parseFreeindex at h ⊢
  cases hn : l.nameMain <|> l.nameAlt <;>
  cases hl : l.locationText <;>
  cases hc : l.categoryText <;>
  cases hr : l.ratingText <;>
  simp only [hn, hl, hc, hr] at h ⊢ <;>
  first
    | exact absurd rfl h
    | exact extract_uk_postcode_spec _ h

/-- Postcode invariant for Thomson Local records. -/
theorem parseThomson_postcode_spec (l : ThomsonListing)
    (h : (parseThomson l).postcode ≠ "") :
    SpecPostcode ((parseThomson l).postcode).toList := by
  unfold parseThomson at h ⊢
  cases hn : l.nameMain <|> l.nameAlt <;>
  cases ha : l.addressText <;>
  cases hp : l.phoneMain <|> l.phoneAlt <;>
  simp only [hn, ha, hp] at h ⊢ <;>
  first
    | exact absurd rfl h
    | exact extract_uk_postcode_spec _ h

/-- Yelp records never carry a postcode. -/
theorem parseYelp_postcode_empty (l : YelpListing) : (parseYelp l).postcode = "" := by
  unfold parseYelp
  cases hn : l.nameText <;>
  cases hc : l.categories.isEmpty <;>
  simp [hn, hc]

/-- Postcode invariant for Google records. -/
theorem parseGoogle_postcode_spec (l : GoogleListing)
    (h : (parseGoogle l).postcode ≠ "") :
    SpecPostcode ((parseGoogle l).postcode).toList := by
  unfold parseGoogle at h ⊢
  cases hn : l.nameMain <|> l.nameAlt <;>
  rcases hr : ratingSearch l.fullText with _ | ⟨r1, rc1⟩ <;>
  cases ha : l.addressText <;>
  cases hp : (extract_uk_phones l.fullText).isEmpty <;>
  simp only [hn, hr, ha, hp] at h ⊢ <;>
  first
    | exact absurd rfl h
    | exact extract_uk_postcode_spec _ h

/-! ## Claim theorems -/

/-- C1: the orchestrator deduplicates by normalised name (lowercase,
trim).  For every accumulated record list whose normalised names are
non-empty (as adapter records are), the first record with a given
normalised name is kept, every later record with the same normalised name
is discarded, and the kept records keep their original order; concretely,
two sources returning case-variant copies of one name yield exactly one
record, the one from the source that ran first. -/
theorem c1_dedup_by_normalized_name :
    (∀ l : List UKBusiness, (∀ b ∈ l, normName b ≠ "") →
      dedupByName l = specFirstOccurrence l) ∧
    search envAcme ("plumbers") ("Leeds") (some ["yell", "freeindex"]) 1 =
      [parseYell yellAcmeListing] ∧
    (parseYell yellAcmeListing).source = "yell.com" ∧
    normName (parseYell yellAcmeListing) =
      normName (parseFreeindex freeindexAcmeListing) := by
  refine ⟨dedupByName_spec, ?_, rfl, ?_⟩
  · rfl
  · rfl

/-- Witness for C1 at a concrete two-record list. -/
theorem c1_witness :
    dedupByName [parseYell yellAcmeListing, parseFreeindex freeindexAcmeListing] =
      specFirstOccurrence
        [parseYell yellAcmeListing, parseFreeindex freeindexAcmeListing] :=
  c1_dedup_by_normalized_name.1 _ (by decide)

/-- C2: an adapter call that raises is swallowed by the orchestrator,
which proceeds with the remaining sources; with one always-raising adapter
and one adapter returning two uniquely named records, the output is
exactly those two records. -/
theorem c2_source_failure_isolated :
    (∀ (env : ScrapeEnv) (q loc : String) (mp : Nat) (pre post : List String)
        (s msg : String),
      (source_methods env q loc mp).lookup s = some (Except.error msg) →
      search env q loc (some (pre ++ s :: post)) mp =
        search env q loc (some (pre ++ post)) mp) ∧
    search envRaise ("plumbers") ("Leeds") (some ["yell", "freeindex"]) 1 =
      [parseFreeindex freeindexAlphaListing, parseFreeindex freeindexBetaListing] := by
  constructor
  · intro env q loc mp pre post s msg h
    unfold search
    exact congrArg dedupByName
      (collectSources_skip env q loc mp pre post s (Or.inr ⟨msg, h⟩))
  · rfl

/-- Witness for C2: dropping the always-raising Yell source leaves the
output unchanged. -/
theorem c2_witness :
    search envRaise ("plumbers") ("Leeds") (some ["yell", "freeindex"]) 1 =
      search envRaise ("plumbers") ("Leeds") (some ["freeindex"]) 1 :=
  c2_source_failure_isolated.1 envRaise _ _ 1 [] ["freeindex"] "yell" "boom" rfl

/-- C3: a transport error on a page stops that adapter invocation without
retrying, returning normally (no exception) with exactly the records of
the prior pages; this holds for all five adapters, with
`scrape_google_maps` fetching a single page. -/
theorem c3_transport_error_degrades_gracefully :
    TransportStops parseYell 1 scrape_yell ∧
    TransportStops parseFreeindex 1 scrape_freeindex ∧
    TransportStops parseThomson 1 scrape_thomson_local ∧
    TransportStops parseYelp 0 scrape_yelp_uk ∧
    (∀ (q loc : String) (mr : Nat),
      scrape_google_maps FetchOutcome.transport q loc mr = Except.ok ([], [0])) := by
  refine ⟨?_, ?_, ?_, ?_, ?_⟩
  · intro fetch q loc mp p h1 h2 hprior htr
    exact scrapeLoop_stop_aux parseYell true fetch p mp 1 h1 h2 hprior (Or.inl htr)
  · intro fetch q loc mp p h1 h2 hprior htr
    exact scrapeLoop_stop_aux parseFreeindex true fetch p mp 1 h1 h2 hprior (Or.inl htr)
  · intro fetch q loc mp p h1 h2 hprior htr
    exact scrapeLoop_stop_aux parseThomson true fetch p mp 1 h1 h2 hprior (Or.inl htr)
  · intro fetch q loc mp p h1 h2 hprior htr
    exact scrapeLoop_stop_aux parseYelp false fetch p mp 0 h1 h2 hprior (Or.inl htr)
  · intro q loc mr
    rfl

/-- Witness for C3: a first-page transport error yields an empty result
and a one-page trace. -/
theorem c3_witness :
    scrape_yell yellTransportFetch ("plumbers") ("Leeds") 2 = Except.ok ([], [1]) := by
  have h := c3_transport_error_degrades_gracefully.1 yellTransportFetch
    ("plumbers") ("Leeds") 2 1 (Nat.le_refl 1) (by omega)
    (fun i h1 h2 => absurd h2 (Nat.not_lt.mpr h1)) rfl
  simpa [List.range'] using h

/-- C4 counterexample: the Yelp adapter has no empty-page stop — after a
successfully fetched page with no listing containers (page 0) it still
fetches page 1, whose record appears in the result. -/
theorem c4_counterexample :
    yelpEmptyThenFullFetch 0 = FetchOutcome.ok [] ∧
    scrape_yelp_uk yelpEmptyThenFullFetch ("plumbers") ("Leeds") 2 =
      Except.ok ([parseYelp yelpBetaListing], [0, 1]) :=
  ⟨rfl, rfl⟩

/-- C4 (amended): the Yell, FreeIndex and Thomson adapters stop
pagination at the first empty page, returning the prior pages and
fetching nothing further; the Yelp adapter instead fetches its whole page
budget even across empty pages. -/
theorem c4_empty_page_stops_except_yelp :
    EmptyPageStops parseYell 1 scrape_yell ∧
    EmptyPageStops parseFreeindex 1 scrape_freeindex ∧
    EmptyPageStops parseThomson 1 scrape_thomson_local ∧
    FetchesAllOkPages parseYelp 0 scrape_yelp_uk := by
  refine ⟨?_, ?_, ?_, ?_⟩
  · intro fetch q loc mp p h1 h2 hprior hemp
    exact scrapeLoop_stop_aux parseYell true fetch p mp 1 h1 h2 hprior (Or.inr ⟨rfl, hemp⟩)
  · intro fetch q loc mp p h1 h2 hprior hemp
    exact scrapeLoop_stop_aux parseFreeindex true fetch p mp 1 h1 h2 hprior
      (Or.inr ⟨rfl, hemp⟩)
  · intro fetch q loc mp p h1 h2 hprior hemp
    exact scrapeLoop_stop_aux parseThomson true fetch p mp 1 h1 h2 hprior
      (Or.inr ⟨rfl, hemp⟩)
  · intro fetch q loc mp hall
    exact scrapeLoop_all_aux parseYelp false fetch mp 0 (fun i hi1 hi2 => by
      obtain ⟨ls, hls⟩ := hall i hi1 hi2
      exact ⟨ls, hls, fun hso => (Bool.false_ne_true hso).elim⟩)

/-- Witness for C4 (amended): Yell stops at the empty second page. -/
theorem c4_witness :
    scrape_yell yellFullThenEmptyFetch ("plumbers") ("Leeds") 3 =
      Except.ok ([parseYell yellAcmeListing], [1, 2]) := by
  have h := c4_empty_page_stops_except_yelp.1 yellFullThenEmptyFetch
    ("plumbers") ("Leeds") 3 2 (by omega) (by omega)
    (fun i h1 h2 => by
      have hi : i = 1 := by omega
      subst hi
      exact ⟨[yellAcmeListing], rfl, by simp⟩)
    rfl
  rw [h]
  rfl

/-- C5: a record is kept by an adapter only with a non-empty name, so no
empty-named record appears in any adapter result nor in the orchestrator
output (where the deduplication step enforces it again). -/
theorem c5_records_have_nonempty_names :
    (∀ (fetch : Nat → FetchOutcome YellListing) (q loc : String) (mp : Nat)
        (res : List UKBusiness) (trace : List Nat),
      scrape_yell fetch q loc mp = Except.ok (res, trace) → ∀ b ∈ res, b.name ≠ "") ∧
    (∀ (fetch : Nat → FetchOutcome FreeindexListing) (q loc : String) (mp : Nat)
        (res : List UKBusiness) (trace : List Nat),
      scrape_freeindex fetch q loc mp = Except.ok (res, trace) → ∀ b ∈ res, b.name ≠ "") ∧
    (∀ (fetch : Nat → FetchOutcome ThomsonListing) (q loc : String) (mp : Nat)
        (res : List UKBusiness) (trace : List Nat),
      scrape_thomson_local fetch q loc mp = Except.ok (res, trace) →
        ∀ b ∈ res, b.name ≠ "") ∧
    (∀ (fetch : Nat → FetchOutcome YelpListing) (q loc : String) (mp : Nat)
        (res : List UKBusiness) (trace : List Nat),
      scrape_yelp_uk fetch q loc mp = Except.ok (res, trace) → ∀ b ∈ res, b.name ≠ "") ∧
    (∀ (fetch : FetchOutcome GoogleListing) (q loc : String) (mr : Nat)
        (res : List UKBusiness) (trace : List Nat),
      scrape_google_maps fetch q loc mr = Except.ok (res, trace) →
        ∀ b ∈ res, b.name ≠ "") ∧
    (∀ (env : ScrapeEnv) (q loc : String) (sources : Option (List String)) (mp : Nat),
      ∀ b ∈ search env q loc sources mp, b.name ≠ "") := by
  refine ⟨?_, ?_, ?_, ?_, ?_, ?_⟩
  · intro fetch q loc mp res trace h
    exact scrapeLoop_names parseYell true fetch mp 1 res trace h
  · intro fetch q loc mp res trace h
    exact scrapeLoop_names parseFreeindex true fetch mp 1 res trace h
  · intro fetch q loc mp res trace h
    exact scrapeLoop_names parseThomson true fetch mp 1 res trace h
  · intro fetch q loc mp res trace h
    exact scrapeLoop_names parseYelp false fetch mp 0 res trace h
  · intro fetch q loc mr res trace h b hb
    cases fetch with
    | transport =>
      simp [scrape_google_maps] at h
      rcases h with ⟨h1, _⟩
      subst h1
      simp at hb
    | exc m => simp [scrape_google_maps] at h
    | ok results =>
      simp [scrape_google_maps] at h
      rcases h with ⟨h1, _⟩
      subst h1
      exact extractPage_names parseGoogle _ b hb
  · exact search_mem_name_ne

/-- Witness for C5 at a concrete Yell run. -/
theorem c5_witness : (parseYell yellAcmeListing).name ≠ "" :=
  c5_records_have_nonempty_names.1 yellFullThenEmptyFetch ("plumbers") ("Leeds") 3
    [parseYell yellAcmeListing] [1, 2] rfl (parseYell yellAcmeListing) (by simp)

/-- C6: a non-empty result of `extract_uk_postcode` (and hence every
non-empty postcode field of a parsed record, for each adapter) matches
the uppercase UK postcode grammar, and the extractor returns the first
match uppercased or the empty string, as on the two concrete
specification examples. -/
theorem c6_postcode_grammar :
    (∀ t : String, extract_uk_postcode t ≠ "" →
      SpecPostcode (extract_uk_postcode t).toList) ∧
    (∀ l : YellListing, (parseYell l).postcode ≠ "" →
      SpecPostcode ((parseYell l).postcode).toList) ∧
    (∀ l : FreeindexListing, (parseFreeindex l).postcode ≠ "" →
      SpecPostcode ((parseFreeindex l).postcode).toList) ∧
    (∀ l : ThomsonListing, (parseThomson l).postcode ≠ "" →
      SpecPostcode ((parseThomson l).postcode).toList) ∧
    (∀ l : GoogleListing, (parseGoogle l).postcode ≠ "" →
      SpecPostcode ((parseGoogle l).postcode).toList) ∧
    (∀ l : YelpListing, (parseYelp l).postcode = "") ∧
    extract_uk_postcode ("123 High St, London, SW1A 1AA") = "SW1A 1AA" ∧
    extract_uk_postcode ("no postcode here") = "" :=
  ⟨extract_uk_postcode_spec, parseYell_postcode_spec, parseFreeindex_postcode_spec,
   parseThomson_postcode_spec, parseGoogle_postcode_spec, parseYelp_postcode_empty,
   by decide, by decide⟩

/-- Witness for C6 at a concrete address text. -/
theorem c6_witness :
    extract_uk_postcode ("123 High St, London, SW1A 1AA") ≠ "" ∧
    SpecPostcode (extract_uk_postcode ("123 High St, London, SW1A 1AA")).toList :=
  ⟨by decide, c6_postcode_grammar.1 _ (by decide)⟩

/-- C7: the boundary caps the page budget before invoking the
orchestrator — the value handed to `search` is `min(max_pages, 5)`,
defaulting to 2 when the field is absent, and a request with
`max_pages = 100` reaches the orchestrator as 5. -/
theorem c7_max_pages_capped :
    (∀ (fields : List (String × JVal)) (n : Int),
      fields.lookup ("max_pages") = some (JVal.num n) →
      cappedMaxPages (JVal.obj fields) = Except.ok (min n 5)) ∧
    (∀ fields : List (String × JVal),
      fields.lookup ("max_pages") = none →
      cappedMaxPages (JVal.obj fields) = Except.ok 2) ∧
    (∀ (searchFn : JVal → JVal → JVal → Int → Except String (List UKBusiness))
        (bs : List UKBusiness),
      searchFn (JVal.str ("plumbers")) (JVal.str ("Leeds"))
          (JVal.arr [JVal.str ("yell"), JVal.str ("freeindex")]) 5 = Except.ok bs →
      do_POST searchFn reqMaxPages100 =
        Except.ok ⟨200, resultJson bs (JVal.str ("plumbers")) (JVal.str ("Leeds"))
          (JVal.arr [JVal.str ("yell"), JVal.str ("freeindex")]), true⟩) := by
  refine ⟨?_, ?_, ?_⟩
  · intro fields n h
    simp [cappedMaxPages, dataGet, h]
  · intro fields h
    simp [cappedMaxPages, dataGet, h]
  · intro searchFn bs h
    simp only [do_POST, reqMaxPages100, tryBody, dataGet, cappedMaxPages]
    simp [List.lookup, pyTruthy, h, show min (100 : Int) 5 = 5 from by decide]

/-- Witness for C7 with a stub orchestrator. -/
theorem c7_witness :
    do_POST searchFnEmpty reqMaxPages100 =
      Except.ok ⟨200, resultJson [] (JVal.str ("plumbers")) (JVal.str ("Leeds"))
        (JVal.arr [JVal.str ("yell"), JVal.str ("freeindex")]), true⟩ :=
  c7_max_pages_capped.2.2 searchFnEmpty [] rfl

/-- C8: `extract_emails` has set semantics — its output has no
duplicates, and it contains exactly the pattern matches that do not hit a
noise-domain exception; a match occurring twice in the text appears
once. -/
theorem c8_extract_emails_set_semantics :
    (∀ t : String, (extract_emails t).Nodup ∧
      ∀ e : String, e ∈ extract_emails t ↔
        (e ∈ refindall emailM t ∧ isNoiseEmail e = false)) ∧
    extract_emails ("a foo@bar.com b foo@bar.com c noreply@example.com") =
      ["foo@bar.com"] := by
  constructor
  · intro t
    constructor
    · exact List.nodup_dedup _
    · intro e
      simp [extract_emails, List.mem_filter]
  · decide

/-- Witness for C8 at a concrete text. -/
theorem c8_witness :
    (extract_emails ("a foo@bar.com b foo@bar.com c noreply@example.com")).Nodup :=
  (c8_extract_emails_set_semantics.1 _).1

/-- C9 counterexample: a request whose Content-Length header does not
parse as an integer makes `int(self.headers['Content-Length'])` raise
before the `try` block, so the exception escapes the handler and no 500
response is produced. -/
theorem c9_counterexample :
    do_POST searchFnEmpty reqBadContentLength =
      Except.error ("invalid Content-Length header") := rfl

/-- C9 (amended): for every request whose Content-Length parses as an
integer, the handler always responds (no exception escapes), with status
200, 400 or 500, and any exception inside the `try` pipeline yields a 500
response whose JSON body carries the error message. -/
theorem c9_handler_500_on_pipeline_exception :
    (∀ (searchFn : JVal → JVal → JVal → Int → Except String (List UKBusiness))
        (cl : Int) (body? : Option JVal),
      ∃ resp, do_POST searchFn ⟨some cl, body?⟩ = Except.ok resp ∧
        (resp.status = 200 ∨ resp.status = 400 ∨ resp.status = 500)) ∧
    (∀ (searchFn : JVal → JVal → JVal → Int → Except String (List UKBusiness))
        (cl : Int) (body? : Option JVal) (e : String),
      tryBody searchFn body? = Except.error e →
      do_POST searchFn ⟨some cl, body?⟩ = Except.ok ⟨500, errJson e, false⟩) := by
  constructor
  · exact do_POST_total
  · intro searchFn cl body? e h
    simp [do_POST, h]

/-- Witness for C9 (amended): a malformed JSON body yields a 500
response with the decode error message. -/
theorem c9_witness :
    do_POST searchFnEmpty ⟨some 7, none⟩ =
      Except.ok ⟨500, errJson ("json decode error"), false⟩ :=
  c9_handler_500_on_pipeline_exception.2 searchFnEmpty 7 none _ rfl

/-- C10: a source identifier outside the five known ones is silently
skipped by the orchestrator — it contributes nothing, raises nothing, and
the remaining sources are processed as if it were absent. -/
theorem c10_unknown_source_skipped :
    ∀ (env : ScrapeEnv) (q loc : String) (mp : Nat) (pre post : List String) (s : String),
      s ∉ (["yell", "google", "thomson", "freeindex", "yelp"] : List String) →
      search env q loc (some (pre ++ s :: post)) mp =
        search env q loc (some (pre ++ post)) mp := by
  intro env q loc mp pre post s h
  unfold search
  exact congrArg dedupByName (collectSources_skip env q loc mp pre post s
    (Or.inl (source_methods_lookup_none env q loc mp s h)))

/-- Witness for C10: an unknown identifier in front of a known one
changes nothing. -/
theorem c10_witness :
    search emptyEnv ("plumbers") ("Leeds") (some ["bing", "yell"]) 1 =
      search emptyEnv ("plumbers") ("Leeds") (some ["yell"]) 1 :=
  c10_unknown_source_skipped emptyEnv _ _ 1 [] ["yell"] "bing" (by decide)
